import Mathlib

/-!
# Shallow embedding of the mixlab project layer and example modules

This file embeds, in Lean, the parts of the `mixlab` repository that the
verified claims refer to:

* `src/project.rs` — project base state (media library, in-progress uploads),
  workspace persistence (`read_workspace`, `write_workspace`, `open_or_create`),
  and the media-upload lifecycle (`begin_media_upload`, `MediaUpload::receive_bytes`,
  `MediaUpload::finalize`);
* `src/module/gate.rs` — the constant-gate generator module;
* `src/module/vst.rs` — the native-plugin adapter module.

Rust `HashMap<Uuid, V>` values are embedded as association lists `List (Nat × V)`
with `Uuid` abstracted to `Nat` (only freshness and equality of identifiers
matter). The filesystem touched by `tokio::fs` is embedded as a function from
paths (lists of components) to entries; each `fs` call is one atomic step on
that state, so the intermediate states of multi-step operations are visible.
Audio samples (`f32` in Rust, only ever the constants `1.0` and `0.0` here)
are embedded as rationals.
-/

namespace Mixlab

/-! ## Association-list maps (embedding of `HashMap`) -/

/-- First-match lookup in an association list, embedding `HashMap::get`. -/
def mapLookup {α : Type} : List (Nat × α) → Nat → Option α
  | [], _ => none
  | (k', v) :: rest, k => if k' = k then some v else mapLookup rest k

/-- Remove every binding of a key, embedding `HashMap::remove`'s effect on the map. -/
def mapRemove {α : Type} : List (Nat × α) → Nat → List (Nat × α)
  | [], _ => []
  | (k', v) :: rest, k =>
      if k' = k then mapRemove rest k else (k', v) :: mapRemove rest k

/-- Insert-or-replace a binding, embedding `HashMap::insert`. -/
def mapInsert {α : Type} (m : List (Nat × α)) (k : Nat) (v : α) : List (Nat × α) :=
  (k, v) :: mapRemove m k

theorem mapLookup_remove_self {α : Type} (m : List (Nat × α)) (k : Nat) :
    mapLookup (mapRemove m k) k = none := by
  induction m with
  | nil => rfl
  | cons p rest ih =>
    obtain ⟨a, b⟩ := p
    by_cases h : a = k
    · simp [mapRemove, h, ih]
    · simp [mapRemove, h, mapLookup, ih]

theorem mapLookup_remove_ne {α : Type} (m : List (Nat × α)) (k k' : Nat) (h : k' ≠ k) :
    mapLookup (mapRemove m k) k' = mapLookup m k' := by
  induction m with
  | nil => rfl
  | cons p rest ih =>
    obtain ⟨a, b⟩ := p
    by_cases hk : a = k
    · have hne : ¬(k = k') := fun he => h he.symm
      simp [mapRemove, hk, mapLookup, hne, ih]
    · by_cases hk' : a = k'
      · simp [mapRemove, hk, mapLookup, hk', h]
      · simp [mapRemove, hk, mapLookup, hk', ih]

theorem mapLookup_insert_self {α : Type} (m : List (Nat × α)) (k : Nat) (v : α) :
    mapLookup (mapInsert m k v) k = some v := by
  simp [mapInsert, mapLookup]

theorem mapLookup_insert_ne {α : Type} (m : List (Nat × α)) (k k' : Nat) (v : α)
    (h : k' ≠ k) :
    mapLookup (mapInsert m k v) k' = mapLookup m k' := by
  have hne : ¬(k = k') := fun he => h he.symm
  simp only [mapInsert, mapLookup, if_neg hne]
  exact mapLookup_remove_ne m k k' h

/-! ## Filesystem model

Paths are lists of components; entries are missing, a regular file with
content, a file present but unreadable (embedding a non-`NotFound` read
error such as a permission failure), or a directory. -/

inductive FsEntry : Type
  | missing
  | file (content : List Nat)
  | brokenFile (code : Nat)
  | dir
deriving DecidableEq, Repr

def FileSystem : Type := List String → FsEntry

/-- Replace the entry at a path. -/
def fsSet (fs : FileSystem) (p : List String) (e : FsEntry) : FileSystem :=
  fun q => if q = p then e else fs q

/-- Embedding of `tokio::fs::write`: atomically replace content at a path. -/
def fsWrite (fs : FileSystem) (p : List String) (content : List Nat) : FileSystem :=
  fsSet fs p (FsEntry.file content)

/-- Embedding of `tokio::fs::rename`: atomically move `src` over `dst`. -/
def fsRename (fs : FileSystem) (src dst : List String) : FileSystem :=
  fun q => if q = dst then fs src else if q = src then FsEntry.missing else fs q

/-- I/O error classes relevant to the embedded code. `invalidData` embeds a
`serde_json::Error` converted into `io::Error` (as `?` does in `read_workspace`). -/
inductive IoErr : Type
  | notFound
  | alreadyExists
  | invalidData (code : Nat)
  | other (code : Nat)
deriving DecidableEq, Repr

/-- Embedding of `tokio::fs::read`. -/
def fsReadFile (fs : FileSystem) (p : List String) : Except IoErr (List Nat) :=
  match fs p with
  | FsEntry.file c => Except.ok c
  | FsEntry.missing => Except.error IoErr.notFound
  | FsEntry.brokenFile code => Except.error (IoErr.other code)
  | FsEntry.dir => Except.error (IoErr.other 0)

/-- Embedding of `tokio::fs::create_dir`: fails with `AlreadyExists` when any
entry occupies the path. -/
def fsCreateDir (fs : FileSystem) (p : List String) : Except IoErr FileSystem :=
  match fs p with
  | FsEntry.missing => Except.ok (fsSet fs p FsEntry.dir)
  | _ => Except.error IoErr.alreadyExists

/-! ## Project data model (`src/project.rs`) -/

/-- `UploadInfo` from `project.rs`. -/
structure UploadInfo : Type where
  name : String
  kind : String
  size : Nat
deriving DecidableEq, Repr

/-- `InProgressUpload` from `project.rs`. -/
structure InProgressUpload : Type where
  info : UploadInfo
  uploaded_bytes : Nat
deriving DecidableEq, Repr

/-- `MediaInfo` from `project.rs`. -/
structure MediaInfo : Type where
  name : String
  kind : String
deriving DecidableEq, Repr

/-- `ProjectBase` from `project.rs`: project directory path, published media
library, and the in-progress uploads map. -/
structure ProjectBase : Type where
  path : List String
  library : List (Nat × MediaInfo)
  uploads : List (Nat × InProgressUpload)
deriving DecidableEq, Repr

/-- `ProjectBase::open_at`. -/
def ProjectBase.open_at (path : List String) : ProjectBase :=
  { path := path, library := [], uploads := [] }

/-- `UploadError` from `project.rs`. -/
inductive UploadError : Type
  | Io (e : IoErr)
  | Cancelled
deriving DecidableEq, Repr

/-- The state a `MediaUpload` handle can reach: the shared project base (what
the Rust code accesses under the `Mutex`), the upload's identifier, and the
bytes written so far to the upload's backing file on disk. -/
structure MediaUploadState : Type where
  base : ProjectBase
  id : Nat
  file : List Nat
deriving DecidableEq, Repr

/-- `MediaUpload::receive_bytes`. The Rust method first awaits
`self.file.write_all(bytes)` and only then locks the base and consults the
uploads map, so the file append happens in both outcomes; on a hit, the
entry's `uploaded_bytes` grows by `bytes.len()`. -/
def receive_bytes (s : MediaUploadState) (bytes : List Nat) :
    Except UploadError Unit × MediaUploadState :=
  let s' : MediaUploadState := { s with file := s.file ++ bytes }
  match mapLookup s'.base.uploads s'.id with
  | none => (Except.error UploadError.Cancelled, s')
  | some up =>
      (Except.ok (),
        { s' with base := { s'.base with
            uploads := mapInsert s'.base.uploads s'.id
              { up with uploaded_bytes := up.uploaded_bytes + bytes.length } } })

/-- `MediaUpload::finalize`: remove the upload from the in-progress map
(failing `Cancelled` when absent) and publish a `MediaInfo` derived from the
upload's `info` into the library under the same identifier. -/
def finalize (s : MediaUploadState) : Except UploadError Unit × ProjectBase :=
  match mapLookup s.base.uploads s.id with
  | none => (Except.error UploadError.Cancelled, s.base)
  | some up =>
      (Except.ok (),
        { s.base with
            uploads := mapRemove s.base.uploads s.id,
            library := mapInsert s.base.library s.id
              { name := up.info.name, kind := up.info.kind } })

/-- `ProjectBase::begin_media_upload`: idempotently create the `media`
directory, create the upload's backing file named by the identifier, and
register the upload with `uploaded_bytes = 0`. The fresh `Uuid::new_v4()` is
passed in as `id`. -/
def ProjectBase.begin_media_upload (base : ProjectBase) (fs : FileSystem)
    (id : Nat) (info : UploadInfo) :
    Except IoErr (ProjectBase × FileSystem × Nat) :=
  let media_path := base.path ++ ["media"]
  let step : Except IoErr FileSystem :=
    match fsCreateDir fs media_path with
    | Except.ok fs' => Except.ok fs'
    | Except.error IoErr.alreadyExists => Except.ok fs
    | Except.error e => Except.error e
  match step with
  | Except.error e => Except.error e
  | Except.ok fs1 =>
      match fs1 media_path with
      | FsEntry.dir =>
          let fs2 := fsWrite fs1 (media_path ++ [toString id]) []
          Except.ok
            ({ base with uploads := mapInsert base.uploads id { info := info, uploaded_bytes := 0 } },
             fs2, id)
      | _ => Except.error (IoErr.other 0)

/-- Run a sequence of `receive_bytes` calls, stopping at the first error
(as a caller driving an upload chunk-by-chunk does). -/
def receiveAll (s : MediaUploadState) : List (List Nat) →
    Except UploadError Unit × MediaUploadState
  | [] => (Except.ok (), s)
  | c :: rest =>
      match receive_bytes s c with
      | (Except.ok _, s') => receiveAll s' rest
      | (Except.error e, s') => (Except.error e, s')

/-- Total length of a list of byte chunks. -/
def totalLen (chunks : List (List Nat)) : Nat :=
  (chunks.map List.length).sum

/-! ## Workspace persistence (`src/project.rs`)

`persist::Workspace` itself is declared in a file outside the sources at hand,
so its shape is modelled from the spec; the persistence code under
verification (`read_workspace`, `write_workspace`, `open_or_create`) is
embedded from `project.rs`. JSON serialization is performed by the external
`serde_json` crate, so it is passed in as a function parameter. -/

/-- Modelled from the spec: `persist::Workspace`, the "serializable snapshot
of graph topology + per-module parameters"; `Workspace::default()` is the
default empty workspace. Its exact fields do not matter to the claims, only
that it is a serializable value with a default. -/
structure Workspace : Type where
  modules : List (Nat × List Nat)
  connections : List (Nat × Nat)
deriving DecidableEq, Repr

def Workspace.default : Workspace :=
  { modules := [], connections := [] }

/-- `ProjectBase::read_workspace`: read `workspace.json` in the project
directory; a `NotFound` read yields the default workspace, any other read
error propagates, and a parse failure propagates (converted to an I/O error,
as `serde_json::Error` converts via `?` in the Rust code). -/
def ProjectBase.read_workspace (parse : List Nat → Except Nat Workspace)
    (base : ProjectBase) (fs : FileSystem) : Except IoErr Workspace :=
  match fsReadFile fs (base.path ++ ["workspace.json"]) with
  | Except.ok serialized =>
      match parse serialized with
      | Except.ok ws => Except.ok ws
      | Except.error code => Except.error (IoErr.invalidData code)
  | Except.error IoErr.notFound => Except.ok Workspace.default
  | Except.error e => Except.error e

/-- `ProjectBase::write_workspace`: serialize the workspace, write the bytes
to the sibling temporary path `.workspace.json.tmp`, then rename that path
over the canonical `workspace.json`. Each of the two filesystem calls is one
atomic step; the rename is the commit point. -/
def ProjectBase.write_workspace (serialize : Workspace → List Nat)
    (base : ProjectBase) (fs : FileSystem) (ws : Workspace) : FileSystem :=
  let workspace_tmp_path := base.path ++ [".workspace.json.tmp"]
  let workspace_path := base.path ++ ["workspace.json"]
  fsRename (fsWrite fs workspace_tmp_path (serialize ws)) workspace_tmp_path workspace_path

/-- `OpenError` from `project.rs`. -/
inductive OpenError : Type
  | Io (e : IoErr)
  | Json (code : Nat)
  | NotDirectory
deriving DecidableEq, Repr

/-- The directory-setup prefix of `open_or_create`: create the project
directory, treating `AlreadyExists` as success when the existing entry is a
directory and as `NotDirectory` otherwise. -/
def openDir (fs : FileSystem) (path : List String) : Except OpenError FileSystem :=
  match fsCreateDir fs path with
  | Except.ok fs' => Except.ok fs'
  | Except.error IoErr.alreadyExists =>
      match fs path with
      | FsEntry.dir => Except.ok fs
      | FsEntry.missing => Except.error (OpenError.Io IoErr.notFound)
      | _ => Except.error OpenError.NotDirectory
  | Except.error e => Except.error (OpenError.Io e)

/-- `open_or_create`: set up the project directory, open a fresh
`ProjectBase` at the path, and read the persisted workspace; any workspace
read error aborts the open. Returns the opened base and the workspace that
seeds the engine. -/
def open_or_create (parse : List Nat → Except Nat Workspace)
    (fs : FileSystem) (path : List String) :
    Except OpenError (ProjectBase × Workspace) :=
  match openDir fs path with
  | Except.error e => Except.error e
  | Except.ok fs1 =>
      let base := ProjectBase.open_at path
      match ProjectBase.read_workspace parse base fs1 with
      | Except.ok ws => Except.ok (base, ws)
      | Except.error e => Except.error (OpenError.Io e)

/-! ## Gate module (`src/module/gate.rs`)

Samples (`f32` in Rust; only the exact constants `1.0` and `0.0` occur) are
embedded as rationals. `GateState` comes from `mixlab_protocol`; its two
variants are exactly the ones matched in `Gate::run_tick`. -/

abbrev Sample : Type := ℚ

/-- `mixlab_protocol::GateState`, the Gate's two-state parameter enum. -/
inductive GateState : Type
  | Open
  | Closed
deriving DecidableEq, Repr

/-- `Gate` from `gate.rs`. -/
structure Gate : Type where
  params : GateState
deriving DecidableEq, Repr

/-- The constant selected by `Gate::run_tick`'s `match` on the state. -/
def gateValue : GateState → Sample
  | GateState.Open => 1
  | GateState.Closed => 0

/-- `Gate::create`. -/
def Gate.create (params : GateState) : Gate × Unit :=
  ({ params := params }, ())

/-- `Gate::params`. -/
def Gate.params_ (g : Gate) : GateState :=
  g.params

/-- `Gate::update`: store the new parameters, emit no indication. -/
def Gate.update (g : Gate) (new_params : GateState) : Gate × Option Unit :=
  ({ g with params := new_params }, none)

/-- `Gate::run_tick`: read `outputs[0].len()` (a panic — embedded as `none` —
when no output block was supplied), then write the state's constant into
every position `0..len` of `outputs[0]`. Writing the constant at each index
of the block is the same as mapping the constant over it. -/
def Gate.run_tick (g : Gate) (_t : Nat) (_inputs : List (Option (List Sample)))
    (outputs : List (List Sample)) : Option (List (List Sample) × Option Unit) :=
  match outputs with
  | [] => none
  | block :: rest => some ((block.map fun _ => gateValue g.params) :: rest, none)

/-- `Gate::input_count`. -/
def Gate.input_count (_g : Gate) : Nat := 0

/-- `Gate::output_count`. -/
def Gate.output_count (_g : Gate) : Nat := 1

/-! ## Vst module (`src/module/vst.rs`)

The `vst` crate's host and plugin are external collaborators: the embedding
represents the environment they provide (whether the fixed plugin path
exists, whether loading and opening succeed, and the arity the plugin
reports) as a `PluginEnv` value, and a loaded plugin as the configuration
state `load_vst` leaves it in. `SAMPLE_RATE` lives in the engine source not
at hand; modelled from the spec as the fixed engine sample rate, with the
block size hardcoded to `SAMPLE_RATE / 100` exactly as `vst.rs` does. -/

/-- Modelled from the spec: the engine's fixed sample rate (`engine::SAMPLE_RATE`,
declared outside the sources at hand). The claims depend only on the
block-size relation `BLOCK_SIZE = SAMPLE_RATE / 100`, not on the value. -/
def SAMPLE_RATE : Nat := 44100

/-- `BLOCK_SIZE` from `vst.rs`: the engine runs at 100 Hz, hardcoded. -/
def BLOCK_SIZE : Nat := SAMPLE_RATE / 100

/-- The arity a plugin reports from `get_info`. -/
structure PluginInfo : Type where
  inputs : Nat
  outputs : Nat
deriving DecidableEq, Repr

/-- The configuration state of a loaded plugin after `load_vst`'s call
sequence (`init`, `set_sample_rate`, `set_block_size`, `get_info`, `resume`). -/
structure PluginHandle : Type where
  initialized : Bool
  sampleRate : Nat
  blockSize : Nat
  resumed : Bool
  info : PluginInfo
deriving DecidableEq, Repr

/-- `mixlab_protocol::LineType` (modelled from the spec: a terminal's line
type, e.g. mono audio). -/
inductive LineType : Type
  | Mono
  | Stereo
deriving DecidableEq, Repr

/-- `mixlab_protocol::Terminal` (modelled from the spec: a typed port with an
optional human-readable label). -/
structure Terminal : Type where
  label : Option String
  lineType : LineType
deriving DecidableEq, Repr

/-- `LineType::unlabeled`. -/
def LineType.unlabeled (lt : LineType) : Terminal :=
  { label := none, lineType := lt }

/-- `Vst` from `vst.rs`. -/
structure Vst : Type where
  plugin : PluginHandle
  inputs : List Terminal
  outputs : List Terminal
deriving DecidableEq, Repr

/-- The external environment `load_vst` runs against: whether the fixed
plugin path exists (`assert!` panics otherwise), whether `PluginLoader::load`
and `open_plugin` succeed (`unwrap` panics otherwise), and the arity the
plugin reports. -/
structure PluginEnv : Type where
  pathExists : Bool
  loadOk : Bool
  openOk : Bool
  info : PluginInfo
deriving DecidableEq, Repr

/-- `load_vst`: load the plugin binary at the fixed path through the
process-wide host, initialize it, set its sample rate to `SAMPLE_RATE` and
its block size to `BLOCK_SIZE`, resume it, and derive one unlabeled mono
terminal per reported input and output. `none` embeds the panics of the
`assert!`/`unwrap` calls on load failure. -/
def load_vst (env : PluginEnv) : Option Vst :=
  if env.pathExists = false then none
  else if env.loadOk = false then none
  else if env.openOk = false then none
  else some
    { plugin :=
        { initialized := true
          sampleRate := SAMPLE_RATE
          blockSize := BLOCK_SIZE
          resumed := true
          info := env.info }
      inputs := List.replicate env.info.inputs LineType.Mono.unlabeled
      outputs := List.replicate env.info.outputs LineType.Mono.unlabeled }

/-- `Vst::create`: built entirely by `load_vst`. -/
def Vst.create (env : PluginEnv) : Option (Vst × Unit) :=
  (load_vst env).map (fun v => (v, ()))

/-- `Vst::update`: discards the old instance and rebuilds it with `load_vst`;
emits no indication. -/
def Vst.update (_old : Vst) (env : PluginEnv) : Option (Vst × Option Unit) :=
  (load_vst env).map (fun v => (v, none))

/-- `Vst::params`. -/
def Vst.params_ (_v : Vst) : Unit := ()

/-- `Vst::run_tick`: the body is just `None` — it takes no plugin
environment, touches neither the instance nor the outputs, and returns no
indication. -/
def Vst.run_tick (v : Vst) (_t : Nat) (_inputs : List (Option (List Sample)))
    (outputs : List (List Sample)) : Vst × List (List Sample) × Option Unit :=
  (v, outputs, none)

/-- `Vst::inputs`. -/
def Vst.inputs_ (v : Vst) : List Terminal := v.inputs

/-- `Vst::outputs`. -/
def Vst.outputs_ (v : Vst) : List Terminal := v.outputs

/-! ## Helper lemmas -/

theorem map_const_eq_replicate {α β : Type} (l : List α) (b : β) :
    l.map (fun _ => b) = List.replicate l.length b := by
  induction l with
  | nil => rfl
  | cons a rest ih => simp [List.map_cons, List.replicate, ih]

/-- Invariant of a successful upload trace: while an entry `⟨info, n⟩` is
registered under the handle's identifier, a run of `receive_bytes` calls all
succeed, keep the identifier, preserve `info` and grow the counter by
exactly the total number of bytes received. -/
theorem receiveAll_lookup (chunks : List (List Nat)) :
    ∀ (s : MediaUploadState) (info : UploadInfo) (n : Nat),
      mapLookup s.base.uploads s.id = some { info := info, uploaded_bytes := n } →
      (receiveAll s chunks).1 = Except.ok ()
      ∧ (receiveAll s chunks).2.id = s.id
      ∧ mapLookup (receiveAll s chunks).2.base.uploads s.id
          = some { info := info, uploaded_bytes := n + totalLen chunks } := by
  induction chunks with
  | nil =>
    intro s info n h
    refine ⟨rfl, rfl, ?_⟩
    simpa [receiveAll, totalLen] using h
  | cons c rest ih =>
    intro s info n h
    have hrw : receiveAll s (c :: rest) =
        receiveAll (MediaUploadState.mk
          { s.base with
              uploads := mapInsert s.base.uploads s.id
                (InProgressUpload.mk info (n + c.length)) }
          s.id (s.file ++ c)) rest := by
      simp [receiveAll, receive_bytes, h]
    have hlook : mapLookup (mapInsert s.base.uploads s.id
          { info := info, uploaded_bytes := n + c.length }) s.id
        = some { info := info, uploaded_bytes := n + c.length } :=
      mapLookup_insert_self _ _ _
    obtain ⟨h1, h2, h3⟩ := ih
      (MediaUploadState.mk
        { s.base with
            uploads := mapInsert s.base.uploads s.id
              (InProgressUpload.mk info (n + c.length)) }
        s.id (s.file ++ c))
      info (n + c.length) hlook
    have harith : n + c.length + totalLen rest = n + totalLen (c :: rest) := by
      simp [totalLen, Nat.add_assoc]
    refine ⟨?_, ?_, ?_⟩
    · rw [hrw]; exact h1
    · rw [hrw]; exact h2
    · rw [hrw, ← harith]; exact h3

/-! ## Claims -/

/-- C1: for every upload identifier not present in the in-progress uploads
map, both `receive_bytes` and `finalize` fail with `UploadError::Cancelled`
— one error class covering genuine cancellation and double-finalize alike —
and neither call changes the project base (in particular the media library
is not mutated). -/
theorem missing_upload_cancelled (s : MediaUploadState) (bytes : List Nat)
    (h : mapLookup s.base.uploads s.id = none) :
    (receive_bytes s bytes).1 = Except.error UploadError.Cancelled
    ∧ (receive_bytes s bytes).2.base = s.base
    ∧ (finalize s).1 = Except.error UploadError.Cancelled
    ∧ (finalize s).2 = s.base := by
  refine ⟨?_, ?_, ?_, ?_⟩ <;> simp [receive_bytes, finalize, h]

/-- C1 witness: a concrete upload handle whose identifier is absent from the
uploads map is refused by both calls. -/
theorem missing_upload_cancelled_witness :
    mapLookup (⟨⟨["p"], [], []⟩, 7, [9]⟩ : MediaUploadState).base.uploads
      (⟨⟨["p"], [], []⟩, 7, [9]⟩ : MediaUploadState).id = none
    ∧ ((receive_bytes ⟨⟨["p"], [], []⟩, 7, [9]⟩ [1, 2]).1
          = Except.error UploadError.Cancelled
        ∧ (receive_bytes ⟨⟨["p"], [], []⟩, 7, [9]⟩ [1, 2]).2.base = ⟨["p"], [], []⟩
        ∧ (finalize ⟨⟨["p"], [], []⟩, 7, [9]⟩).1 = Except.error UploadError.Cancelled
        ∧ (finalize ⟨⟨["p"], [], []⟩, 7, [9]⟩).2 = ⟨["p"], [], []⟩) :=
  ⟨rfl, missing_upload_cancelled ⟨⟨["p"], [], []⟩, 7, [9]⟩ [1, 2] rfl⟩

/-- C9: `receive_bytes` appends the given bytes to the upload's backing file
before the uploads map is consulted, unconditionally — so even when the
identifier is gone and the call fails `Cancelled` leaving the project base
untouched, the on-disk file has still been mutated. -/
theorem receive_bytes_file_write_first (s : MediaUploadState) (bytes : List Nat) :
    (receive_bytes s bytes).2.file = s.file ++ bytes
    ∧ (mapLookup s.base.uploads s.id = none →
        (receive_bytes s bytes).1 = Except.error UploadError.Cancelled
        ∧ (receive_bytes s bytes).2.base = s.base
        ∧ (receive_bytes s bytes).2.file = s.file ++ bytes) := by
  constructor
  · cases hm : mapLookup s.base.uploads s.id <;> simp [receive_bytes, hm]
  · intro h
    refine ⟨?_, ?_, ?_⟩ <;> simp [receive_bytes, h]

/-- C9 witness: a concrete cancelled upload still gets its file extended. -/
theorem receive_bytes_file_write_first_witness :
    ((receive_bytes ⟨⟨["p"], [], []⟩, 7, [9]⟩ [1, 2]).2.file = [9] ++ [1, 2]
      ∧ (mapLookup (⟨⟨["p"], [], []⟩, 7, [9]⟩ : MediaUploadState).base.uploads
            (⟨⟨["p"], [], []⟩, 7, [9]⟩ : MediaUploadState).id = none →
          (receive_bytes ⟨⟨["p"], [], []⟩, 7, [9]⟩ [1, 2]).1
              = Except.error UploadError.Cancelled
          ∧ (receive_bytes ⟨⟨["p"], [], []⟩, 7, [9]⟩ [1, 2]).2.base = ⟨["p"], [], []⟩
          ∧ (receive_bytes ⟨⟨["p"], [], []⟩, 7, [9]⟩ [1, 2]).2.file = [9] ++ [1, 2])) :=
  receive_bytes_file_write_first ⟨⟨["p"], [], []⟩, 7, [9]⟩ [1, 2]

/-- C3: an upload registered by `begin_media_upload` starts with
`uploaded_bytes = 0`; a run of successful `receive_bytes` calls totaling `B`
bytes leaves the counter at exactly `B`; and each single `receive_bytes`
step on a registered entry adds exactly the chunk length, so the counter
never decreases. -/
theorem upload_counter_exact (base : ProjectBase) (fs : FileSystem) (id : Nat)
    (info : UploadInfo) (chunks : List (List Nat))
    (hdir : fs (base.path ++ ["media"]) = FsEntry.dir
          ∨ fs (base.path ++ ["media"]) = FsEntry.missing) :
    (∃ fs1,
      base.begin_media_upload fs id info = Except.ok
        ({ base with uploads := mapInsert base.uploads id (InProgressUpload.mk info 0) },
         fs1, id)
      ∧ mapLookup (mapInsert base.uploads id (InProgressUpload.mk info 0)) id
          = some { info := info, uploaded_bytes := 0 }
      ∧ (receiveAll (MediaUploadState.mk
            { base with uploads := mapInsert base.uploads id (InProgressUpload.mk info 0) }
            id []) chunks).1 = Except.ok ()
      ∧ mapLookup (receiveAll (MediaUploadState.mk
            { base with uploads := mapInsert base.uploads id (InProgressUpload.mk info 0) }
            id []) chunks).2.base.uploads id
          = some { info := info, uploaded_bytes := totalLen chunks })
    ∧ (∀ (s : MediaUploadState) (bytes : List Nat) (up : InProgressUpload),
        mapLookup s.base.uploads s.id = some up →
        mapLookup (receive_bytes s bytes).2.base.uploads s.id
          = some { up with uploaded_bytes := up.uploaded_bytes + bytes.length }
        ∧ up.uploaded_bytes ≤ up.uploaded_bytes + bytes.length) := by
  constructor
  · have hb : ∃ fs1, base.begin_media_upload fs id info = Except.ok
        ({ base with uploads := mapInsert base.uploads id (InProgressUpload.mk info 0) },
         fs1, id) := by
      rcases hdir with hdir | hdir
      · refine ⟨fsWrite fs (base.path ++ ["media"] ++ [toString id]) [], ?_⟩
        simp [ProjectBase.begin_media_upload, fsCreateDir, hdir]
      · refine ⟨fsWrite (fsSet fs (base.path ++ ["media"]) FsEntry.dir)
            (base.path ++ ["media"] ++ [toString id]) [], ?_⟩
        simp [ProjectBase.begin_media_upload, fsCreateDir, hdir, fsSet]
    obtain ⟨fs1, hb⟩ := hb
    obtain ⟨h1, h2, h3⟩ := receiveAll_lookup chunks
      (MediaUploadState.mk
        { base with uploads := mapInsert base.uploads id (InProgressUpload.mk info 0) }
        id [])
      info 0 (mapLookup_insert_self _ _ _)
    refine ⟨fs1, hb, mapLookup_insert_self _ _ _, h1, ?_⟩
    simpa using h3
  · intro s bytes up h
    refine ⟨?_, Nat.le_add_right _ _⟩
    simp [receive_bytes, h, mapLookup_insert_self]

/-- C3 witness: a concrete upload of two chunks of 2 and 1 bytes ends with
`uploaded_bytes = 3`. -/
theorem upload_counter_exact_witness :
    ((fun _ : List String => FsEntry.missing)
        ((ProjectBase.open_at ["p"]).path ++ ["media"]) = FsEntry.dir
      ∨ (fun _ : List String => FsEntry.missing)
        ((ProjectBase.open_at ["p"]).path ++ ["media"]) = FsEntry.missing)
    ∧ ((∃ fs1,
        (ProjectBase.open_at ["p"]).begin_media_upload (fun _ => FsEntry.missing) 5
            (UploadInfo.mk "a" "b" 3) = Except.ok
          ({ ProjectBase.open_at ["p"] with
              uploads := mapInsert (ProjectBase.open_at ["p"]).uploads 5
                (InProgressUpload.mk (UploadInfo.mk "a" "b" 3) 0) },
           fs1, 5)
        ∧ mapLookup (mapInsert (ProjectBase.open_at ["p"]).uploads 5
              (InProgressUpload.mk (UploadInfo.mk "a" "b" 3) 0)) 5
            = some { info := UploadInfo.mk "a" "b" 3, uploaded_bytes := 0 }
        ∧ (receiveAll (MediaUploadState.mk
              { ProjectBase.open_at ["p"] with
                  uploads := mapInsert (ProjectBase.open_at ["p"]).uploads 5
                    (InProgressUpload.mk (UploadInfo.mk "a" "b" 3) 0) }
              5 []) [[1, 2], [3]]).1 = Except.ok ()
        ∧ mapLookup (receiveAll (MediaUploadState.mk
              { ProjectBase.open_at ["p"] with
                  uploads := mapInsert (ProjectBase.open_at ["p"]).uploads 5
                    (InProgressUpload.mk (UploadInfo.mk "a" "b" 3) 0) }
              5 []) [[1, 2], [3]]).2.base.uploads 5
            = some { info := UploadInfo.mk "a" "b" 3,
                     uploaded_bytes := totalLen [[1, 2], [3]] })
      ∧ (∀ (s : MediaUploadState) (bytes : List Nat) (up : InProgressUpload),
          mapLookup s.base.uploads s.id = some up →
          mapLookup (receive_bytes s bytes).2.base.uploads s.id
            = some { up with uploaded_bytes := up.uploaded_bytes + bytes.length }
          ∧ up.uploaded_bytes ≤ up.uploaded_bytes + bytes.length)) :=
  ⟨Or.inr rfl,
    upload_counter_exact (ProjectBase.open_at ["p"]) (fun _ => FsEntry.missing) 5
      (UploadInfo.mk "a" "b" 3) [[1, 2], [3]] (Or.inr rfl)⟩

/-- C2: after `begin_media_upload` registers an upload and any run of
successful `receive_bytes` calls, `finalize` succeeds, removes the entry
from the in-progress uploads map, and inserts into the media library —
under the same identifier — an immutable `MediaInfo` carrying exactly the
name and kind given at `begin_media_upload`. -/
theorem finalize_publishes (base : ProjectBase) (fs : FileSystem) (id : Nat)
    (info : UploadInfo) (chunks : List (List Nat))
    (hdir : fs (base.path ++ ["media"]) = FsEntry.dir
          ∨ fs (base.path ++ ["media"]) = FsEntry.missing) :
    ∃ fs1,
      base.begin_media_upload fs id info = Except.ok
        ({ base with uploads := mapInsert base.uploads id (InProgressUpload.mk info 0) },
         fs1, id)
      ∧ (finalize (receiveAll (MediaUploadState.mk
            { base with uploads := mapInsert base.uploads id (InProgressUpload.mk info 0) }
            id []) chunks).2).1 = Except.ok ()
      ∧ mapLookup (finalize (receiveAll (MediaUploadState.mk
            { base with uploads := mapInsert base.uploads id (InProgressUpload.mk info 0) }
            id []) chunks).2).2.uploads id = none
      ∧ mapLookup (finalize (receiveAll (MediaUploadState.mk
            { base with uploads := mapInsert base.uploads id (InProgressUpload.mk info 0) }
            id []) chunks).2).2.library id
          = some { name := info.name, kind := info.kind } := by
  have hb : ∃ fs1, base.begin_media_upload fs id info = Except.ok
      ({ base with uploads := mapInsert base.uploads id (InProgressUpload.mk info 0) },
       fs1, id) := by
    rcases hdir with hdir | hdir
    · refine ⟨fsWrite fs (base.path ++ ["media"] ++ [toString id]) [], ?_⟩
      simp [ProjectBase.begin_media_upload, fsCreateDir, hdir]
    · refine ⟨fsWrite (fsSet fs (base.path ++ ["media"]) FsEntry.dir)
          (base.path ++ ["media"] ++ [toString id]) [], ?_⟩
      simp [ProjectBase.begin_media_upload, fsCreateDir, hdir, fsSet]
  obtain ⟨fs1, hb⟩ := hb
  obtain ⟨h1, h2, h3⟩ := receiveAll_lookup chunks
    (MediaUploadState.mk
      { base with uploads := mapInsert base.uploads id (InProgressUpload.mk info 0) }
      id [])
    info 0 (mapLookup_insert_self _ _ _)
  have hkey : mapLookup (receiveAll (MediaUploadState.mk
        { base with uploads := mapInsert base.uploads id (InProgressUpload.mk info 0) }
        id []) chunks).2.base.uploads id
      = some (InProgressUpload.mk info (0 + totalLen chunks)) := h3
  refine ⟨fs1, hb, ?_, ?_, ?_⟩
  · simp [finalize, hkey, h2]
  · simp [finalize, hkey, h2, mapLookup_remove_self]
  · simp [finalize, hkey, h2, mapLookup_insert_self]

/-- C2 witness: a concrete upload is published into the library under its
identifier with the name and kind it was begun with. -/
theorem finalize_publishes_witness :
    ((fun _ : List String => FsEntry.missing)
        ((ProjectBase.open_at ["p"]).path ++ ["media"]) = FsEntry.dir
      ∨ (fun _ : List String => FsEntry.missing)
        ((ProjectBase.open_at ["p"]).path ++ ["media"]) = FsEntry.missing)
    ∧ (∃ fs1,
        (ProjectBase.open_at ["p"]).begin_media_upload (fun _ => FsEntry.missing) 5
            (UploadInfo.mk "song.mp3" "audio/mpeg" 3) = Except.ok
          ({ ProjectBase.open_at ["p"] with
              uploads := mapInsert (ProjectBase.open_at ["p"]).uploads 5
                (InProgressUpload.mk (UploadInfo.mk "song.mp3" "audio/mpeg" 3) 0) },
           fs1, 5)
        ∧ (finalize (receiveAll (MediaUploadState.mk
              { ProjectBase.open_at ["p"] with
                  uploads := mapInsert (ProjectBase.open_at ["p"]).uploads 5
                    (InProgressUpload.mk (UploadInfo.mk "song.mp3" "audio/mpeg" 3) 0) }
              5 []) [[1, 2], [3]]).2).1 = Except.ok ()
        ∧ mapLookup (finalize (receiveAll (MediaUploadState.mk
              { ProjectBase.open_at ["p"] with
                  uploads := mapInsert (ProjectBase.open_at ["p"]).uploads 5
                    (InProgressUpload.mk (UploadInfo.mk "song.mp3" "audio/mpeg" 3) 0) }
              5 []) [[1, 2], [3]]).2).2.uploads 5 = none
        ∧ mapLookup (finalize (receiveAll (MediaUploadState.mk
              { ProjectBase.open_at ["p"] with
                  uploads := mapInsert (ProjectBase.open_at ["p"]).uploads 5
                    (InProgressUpload.mk (UploadInfo.mk "song.mp3" "audio/mpeg" 3) 0) }
              5 []) [[1, 2], [3]]).2).2.library 5
            = some { name := (UploadInfo.mk "song.mp3" "audio/mpeg" 3).name,
                     kind := (UploadInfo.mk "song.mp3" "audio/mpeg" 3).kind }) :=
  ⟨Or.inr rfl,
    finalize_publishes (ProjectBase.open_at ["p"]) (fun _ => FsEntry.missing) 5
      (UploadInfo.mk "song.mp3" "audio/mpeg" 3) [[1, 2], [3]] (Or.inr rfl)⟩

/-- C5: with the project directory in place, opening when the persisted
`workspace.json` does not exist succeeds with the default empty workspace;
any other read error (a present-but-unreadable file, or persisted JSON the
parser rejects) is returned and aborts the open. -/
theorem open_missing_workspace_defaults (parse : List Nat → Except Nat Workspace)
    (fs : FileSystem) (path : List String)
    (hdir : fs path = FsEntry.dir) :
    (fs (path ++ ["workspace.json"]) = FsEntry.missing →
        open_or_create parse fs path
          = Except.ok (ProjectBase.open_at path, Workspace.default))
    ∧ (∀ code, fs (path ++ ["workspace.json"]) = FsEntry.brokenFile code →
        open_or_create parse fs path
          = Except.error (OpenError.Io (IoErr.other code)))
    ∧ (∀ bytes code, fs (path ++ ["workspace.json"]) = FsEntry.file bytes →
        parse bytes = Except.error code →
        open_or_create parse fs path
          = Except.error (OpenError.Io (IoErr.invalidData code))) := by
  have hopen : openDir fs path = Except.ok fs := by
    simp [openDir, fsCreateDir, hdir]
  refine ⟨?_, ?_, ?_⟩
  · intro h
    simp [open_or_create, hopen, ProjectBase.read_workspace, fsReadFile,
      ProjectBase.open_at, h]
  · intro code h
    simp [open_or_create, hopen, ProjectBase.read_workspace, fsReadFile,
      ProjectBase.open_at, h]
  · intro bytes code hf hp
    simp [open_or_create, hopen, ProjectBase.read_workspace, fsReadFile,
      ProjectBase.open_at, hf, hp]

/-- C5 witness: concrete filesystems exercising all three read outcomes — a
missing workspace file opens with the default workspace, an unreadable one
and an unparsable one abort the open. -/
theorem open_missing_workspace_defaults_witness :
    ((fun q : List String => if q = ["p"] then FsEntry.dir else FsEntry.missing)
        ["p"] = FsEntry.dir
      ∧ ((fun q : List String => if q = ["p"] then FsEntry.dir else FsEntry.missing)
            (["p"] ++ ["workspace.json"]) = FsEntry.missing →
          open_or_create (fun _ => Except.error 0)
              (fun q => if q = ["p"] then FsEntry.dir else FsEntry.missing) ["p"]
            = Except.ok (ProjectBase.open_at ["p"], Workspace.default)))
    ∧ ((fun q : List String => if q = ["p"] then FsEntry.dir
          else if q = ["p", "workspace.json"] then FsEntry.brokenFile 3
          else FsEntry.missing) ["p"] = FsEntry.dir
      ∧ ((fun q : List String => if q = ["p"] then FsEntry.dir
            else if q = ["p", "workspace.json"] then FsEntry.brokenFile 3
            else FsEntry.missing) (["p"] ++ ["workspace.json"]) = FsEntry.brokenFile 3 →
          open_or_create (fun _ => Except.error 0)
              (fun q => if q = ["p"] then FsEntry.dir
                else if q = ["p", "workspace.json"] then FsEntry.brokenFile 3
                else FsEntry.missing) ["p"]
            = Except.error (OpenError.Io (IoErr.other 3))))
    ∧ ((fun q : List String => if q = ["p"] then FsEntry.dir
          else if q = ["p", "workspace.json"] then FsEntry.file [4]
          else FsEntry.missing) ["p"] = FsEntry.dir
      ∧ ((fun q : List String => if q = ["p"] then FsEntry.dir
            else if q = ["p", "workspace.json"] then FsEntry.file [4]
            else FsEntry.missing) (["p"] ++ ["workspace.json"]) = FsEntry.file [4] →
          (fun _ : List Nat => (Except.error 9 : Except Nat Workspace)) [4]
            = Except.error 9 →
          open_or_create (fun _ => Except.error 9)
              (fun q => if q = ["p"] then FsEntry.dir
                else if q = ["p", "workspace.json"] then FsEntry.file [4]
                else FsEntry.missing) ["p"]
            = Except.error (OpenError.Io (IoErr.invalidData 9)))) :=
  ⟨⟨by decide,
      (open_missing_workspace_defaults (fun _ => Except.error 0)
        (fun q => if q = ["p"] then FsEntry.dir else FsEntry.missing) ["p"]
        (by decide)).1⟩,
    ⟨by decide,
      fun h => ((open_missing_workspace_defaults (fun _ => Except.error 0)
        (fun q => if q = ["p"] then FsEntry.dir
          else if q = ["p", "workspace.json"] then FsEntry.brokenFile 3
          else FsEntry.missing) ["p"] (by decide)).2.1) 3 h⟩,
    ⟨by decide,
      fun hf hp => ((open_missing_workspace_defaults (fun _ => Except.error 9)
        (fun q => if q = ["p"] then FsEntry.dir
          else if q = ["p", "workspace.json"] then FsEntry.file [4]
          else FsEntry.missing) ["p"] (by decide)).2.2) [4] 9 hf hp⟩⟩

/-- C4: `write_workspace` is exactly the write-to-temporary-then-rename
sequence: it writes the full serialized content to the sibling temporary
path `.workspace.json.tmp` and then renames it over the canonical
`workspace.json`; after the first step the canonical path still holds its
previous entry (a reader never sees a partial file), and after the rename —
the sole commit point — the canonical path holds the full serialized
content. -/
theorem write_workspace_atomic (serialize : Workspace → List Nat)
    (base : ProjectBase) (fs : FileSystem) (ws : Workspace) :
    ProjectBase.write_workspace serialize base fs ws
      = fsRename (fsWrite fs (base.path ++ [".workspace.json.tmp"]) (serialize ws))
          (base.path ++ [".workspace.json.tmp"]) (base.path ++ ["workspace.json"])
    ∧ fsWrite fs (base.path ++ [".workspace.json.tmp"]) (serialize ws)
        (base.path ++ ["workspace.json"]) = fs (base.path ++ ["workspace.json"])
    ∧ ProjectBase.write_workspace serialize base fs ws (base.path ++ ["workspace.json"])
        = FsEntry.file (serialize ws) := by
  have hne : base.path ++ ["workspace.json"] ≠ base.path ++ [".workspace.json.tmp"] := by
    simp
  refine ⟨rfl, ?_, ?_⟩
  · simp [fsWrite, fsSet, hne]
  · simp [ProjectBase.write_workspace, fsRename, fsWrite, fsSet]

/-- C6: `Gate::run_tick` fills its single output block completely: the block
keeps its length with every position written, each sample is the constant
`gateValue` of the current state, that constant is exactly `1.0` when open
and exactly `0.0` when closed, and the Gate declares zero inputs and one
output. -/
theorem gate_run_tick_fills (g : Gate) (t : Nat)
    (inputs : List (Option (List Sample)))
    (block : List Sample) (rest : List (List Sample)) :
    Gate.run_tick g t inputs (block :: rest)
      = some (List.replicate block.length (gateValue g.params) :: rest, none)
    ∧ gateValue GateState.Open = 1
    ∧ gateValue GateState.Closed = 0
    ∧ Gate.output_count g = 1
    ∧ Gate.input_count g = 0 := by
  refine ⟨?_, rfl, rfl, rfl, rfl⟩
  simp [Gate.run_tick, map_const_eq_replicate]

/-- C10: updating a Gate with parameters `p` makes a subsequent `params`
call return exactly `p`, and `update` always returns no indication. -/
theorem gate_update_params_roundtrip (g : Gate) (p : GateState) :
    Gate.params_ (Gate.update g p).1 = p ∧ (Gate.update g p).2 = none :=
  ⟨rfl, rfl⟩

/-- C7: `Vst::run_tick` performs no plugin loading and no other work: for
every tick index, inputs and outputs it returns no indication and leaves the
instance — its plugin handle and both terminal lists — and the output blocks
unchanged (its type does not even receive the plugin environment that
`load_vst` needs, so no load can occur there). -/
theorem vst_run_tick_inert (v : Vst) (t : Nat)
    (inputs : List (Option (List Sample))) (outputs : List (List Sample)) :
    Vst.run_tick v t inputs outputs = (v, outputs, none)
    ∧ (Vst.run_tick v t inputs outputs).1.plugin = v.plugin
    ∧ (Vst.run_tick v t inputs outputs).1.inputs = v.inputs
    ∧ (Vst.run_tick v t inputs outputs).1.outputs = v.outputs :=
  ⟨rfl, rfl, rfl, rfl⟩

/-- C8: when the plugin environment lets the load succeed, both `Vst::create`
and `Vst::update` fully reconstruct the instance via `load_vst`: the plugin
is initialized, configured with the engine sample rate and block size
`SAMPLE_RATE / 100`, and resumed, and the input and output terminal lists
hold one unlabeled mono terminal per self-reported input and output. -/
theorem vst_create_update_reconstruct (env : PluginEnv) (old : Vst)
    (h1 : env.pathExists = true) (h2 : env.loadOk = true) (h3 : env.openOk = true) :
    Vst.create env = some
      ({ plugin := { initialized := true, sampleRate := SAMPLE_RATE,
                     blockSize := SAMPLE_RATE / 100, resumed := true, info := env.info },
         inputs := List.replicate env.info.inputs LineType.Mono.unlabeled,
         outputs := List.replicate env.info.outputs LineType.Mono.unlabeled }, ())
    ∧ Vst.update old env = some
      ({ plugin := { initialized := true, sampleRate := SAMPLE_RATE,
                     blockSize := SAMPLE_RATE / 100, resumed := true, info := env.info },
         inputs := List.replicate env.info.inputs LineType.Mono.unlabeled,
         outputs := List.replicate env.info.outputs LineType.Mono.unlabeled }, none) := by
  constructor <;> simp [Vst.create, Vst.update, load_vst, h1, h2, h3, BLOCK_SIZE]

/-- C8 witness: a concrete successful environment reporting two inputs and
three outputs yields the fully configured instance from both entry points. -/
theorem vst_create_update_reconstruct_witness :
    (⟨true, true, true, ⟨2, 3⟩⟩ : PluginEnv).pathExists = true
    ∧ (⟨true, true, true, ⟨2, 3⟩⟩ : PluginEnv).loadOk = true
    ∧ (⟨true, true, true, ⟨2, 3⟩⟩ : PluginEnv).openOk = true
    ∧ (Vst.create ⟨true, true, true, ⟨2, 3⟩⟩ = some
        ({ plugin := { initialized := true, sampleRate := SAMPLE_RATE,
                       blockSize := SAMPLE_RATE / 100, resumed := true,
                       info := (⟨true, true, true, ⟨2, 3⟩⟩ : PluginEnv).info },
           inputs := List.replicate (⟨true, true, true, ⟨2, 3⟩⟩ : PluginEnv).info.inputs
             LineType.Mono.unlabeled,
           outputs := List.replicate (⟨true, true, true, ⟨2, 3⟩⟩ : PluginEnv).info.outputs
             LineType.Mono.unlabeled }, ())
      ∧ Vst.update ⟨⟨false, 0, 0, false, ⟨0, 0⟩⟩, [], []⟩ ⟨true, true, true, ⟨2, 3⟩⟩ = some
        ({ plugin := { initialized := true, sampleRate := SAMPLE_RATE,
                       blockSize := SAMPLE_RATE / 100, resumed := true,
                       info := (⟨true, true, true, ⟨2, 3⟩⟩ : PluginEnv).info },
           inputs := List.replicate (⟨true, true, true, ⟨2, 3⟩⟩ : PluginEnv).info.inputs
             LineType.Mono.unlabeled,
           outputs := List.replicate (⟨true, true, true, ⟨2, 3⟩⟩ : PluginEnv).info.outputs
             LineType.Mono.unlabeled }, none)) :=
  ⟨rfl, rfl, rfl,
    vst_create_update_reconstruct ⟨true, true, true, ⟨2, 3⟩⟩
      ⟨⟨false, 0, 0, false, ⟨0, 0⟩⟩, [], []⟩ rfl rfl rfl⟩

end Mixlab
